import Mathlib

/-!
Verification of the openapi-validator request/response validation engine.

The definitions below are a shallow embedding of the Rust sources:
strings are embedded as `List Char` (the byte-for-byte comparisons in the
source are `&str` equality), body bytes as `List Nat` (each < 256), and the
`serde_json`/`jsonschema`/`url` crates — external collaborators per the
engine's design — appear as explicit function parameters where their exact
behaviour is irrelevant, or as concrete executable models where it matters.

Where the repository holds several incremental snapshots of a module, both
are embedded and named apart (`..._old` for the superseded snapshot).
-/

set_option maxRecDepth 10000

abbrev Str := List Char

/-- JSON values as produced by the schema translator.  Numeric literals are
embedded as `Rat`: the source carries `f64`/`i64` payloads that the
translator only copies verbatim and never computes with. -/
inductive JSON where
  | null
  | bool (b : Bool)
  | num (q : Rat)
  | str (s : Str)
  | arr (elems : List JSON)
  | obj (fields : List (Str × JSON))

/-- Key lookup in a translated JSON object (first binding wins, mirroring a
map in which every key is inserted at most once). -/
def JSON.lookup (j : JSON) (key : Str) : Option JSON :=
  match j with
  | .obj fields => (fields.find? (fun kv => decide (kv.1 = key))).map (·.2)
  | _ => none

/-! ## Schema translator, Number/Integer nodes

Embeds `impl ToJSONSchema for openapiv3::NumberType / IntegerType` from both
snapshots: `src/to_jsonschema.rs` (current, via the `InsertIf` helpers) and
`src/jsonschema.rs` (superseded).  Field order follows each source. -/

/-- Embeds `openapiv3::NumberType`: the schema node for `type: number`. -/
structure NumberType where
  multiple_of : Option Rat
  exclusive_minimum : Bool
  exclusive_maximum : Bool
  minimum : Option Rat
  maximum : Option Rat
  enumeration : List (Option Rat)
deriving DecidableEq

/-- Embeds `openapiv3::IntegerType`: the schema node for `type: integer`. -/
structure IntegerType where
  multiple_of : Option Int
  exclusive_minimum : Bool
  exclusive_maximum : Bool
  minimum : Option Int
  maximum : Option Int
  enumeration : List (Option Int)
deriving DecidableEq

/-- Embeds `InsertIf::insert_if_some`: emit the binding only when the value is
present. -/
def insert_if_some (key : Str) (v : Option JSON) : List (Str × JSON) :=
  match v with
  | some j => [(key, j)]
  | none => []

/-- Embeds `InsertIf::insert_if_true`: emit the binding (with the flag itself as the
value, hence `true`) only when the flag is set. -/
def insert_if_true (key : Str) (b : Bool) : List (Str × JSON) :=
  if b then [(key, .bool b)] else []

/-- Embeds `InsertIf::insert_if_not_empty`: emit the array binding only when the
list is non-empty. -/
def insert_if_not_empty (key : Str) (vs : List JSON) : List (Str × JSON) :=
  if vs.isEmpty then [] else [(key, .arr vs)]

def ratOptToJSON (v : Option Rat) : JSON :=
  match v with
  | some q => .num q
  | none => .null

def intOptToJSON (v : Option Int) : JSON :=
  match v with
  | some i => .num (i : Rat)
  | none => .null

/-- Embeds `ToJSONSchema for openapiv3::NumberType` in `src/to_jsonschema.rs`
(current snapshot). -/
def NumberType.to_json_schema (t : NumberType) : JSON :=
  .obj ([("type".data, .str "number".data)]
    ++ insert_if_some "minimum".data (t.minimum.map .num)
    ++ insert_if_some "maximum".data (t.maximum.map .num)
    ++ insert_if_true "exclusiveMinimum".data t.exclusive_minimum
    ++ insert_if_true "exclusiveMaximum".data t.exclusive_maximum
    ++ insert_if_some "multipleOf".data (t.multiple_of.map .num)
    ++ insert_if_not_empty "enum".data (t.enumeration.map ratOptToJSON))

/-- Embeds `ToJSONSchema for openapiv3::IntegerType` in `src/to_jsonschema.rs`
(current snapshot). -/
def IntegerType.to_json_schema (t : IntegerType) : JSON :=
  .obj ([("type".data, .str "integer".data)]
    ++ insert_if_some "minimum".data (t.minimum.map (fun i => .num (i : Rat)))
    ++ insert_if_some "maximum".data (t.maximum.map (fun i => .num (i : Rat)))
    ++ insert_if_true "exclusiveMinimum".data t.exclusive_minimum
    ++ insert_if_true "exclusiveMaximum".data t.exclusive_maximum
    ++ insert_if_some "multipleOf".data (t.multiple_of.map (fun i => .num (i : Rat)))
    ++ insert_if_not_empty "enum".data (t.enumeration.map intOptToJSON))

/-- Embeds `ToJSONSchema for openapiv3::NumberType` in `src/jsonschema.rs`
(superseded snapshot).  Note: the `exclusiveMaximum` branch inserts
`self.exclusive_minimum` as the value, exactly as the source does. -/
def NumberType.to_json_schema_old (t : NumberType) : JSON :=
  .obj ([("type".data, .str "number".data)]
    ++ (match t.minimum with
        | some q => [("minimum".data, JSON.num q)]
        | none => [])
    ++ (match t.maximum with
        | some q => [("maximum".data, JSON.num q)]
        | none => [])
    ++ (if t.exclusive_minimum then
          [("exclusiveMinimum".data, JSON.bool t.exclusive_minimum)]
        else [])
    ++ (if t.exclusive_maximum then
          [("exclusiveMaximum".data, JSON.bool t.exclusive_minimum)]
        else [])
    ++ (match t.multiple_of with
        | some q => [("multipleOf".data, JSON.num q)]
        | none => []))

/-- Embeds `ToJSONSchema for openapiv3::IntegerType` in `src/jsonschema.rs`
(superseded snapshot), with the same `exclusive_minimum` value inserted
under the `exclusiveMaximum` key as in the source. -/
def IntegerType.to_json_schema_old (t : IntegerType) : JSON :=
  .obj ([("type".data, .str "integer".data)]
    ++ (match t.minimum with
        | some i => [("minimum".data, JSON.num (i : Rat))]
        | none => [])
    ++ (match t.maximum with
        | some i => [("maximum".data, JSON.num (i : Rat))]
        | none => [])
    ++ (if t.exclusive_minimum then
          [("exclusiveMinimum".data, JSON.bool t.exclusive_minimum)]
        else [])
    ++ (if t.exclusive_maximum then
          [("exclusiveMaximum".data, JSON.bool t.exclusive_minimum)]
        else [])
    ++ (match t.multiple_of with
        | some i => [("multipleOf".data, JSON.num (i : Rat))]
        | none => []))

/-! ## Response validator

Embeds `ResponseValidator::validate_status_code` and
`extract_range_from_status_code` from `src/response.rs` (current snapshot;
the superseded `src/validators/response.rs` supports exact codes only).
The `todo!()` reached for status codes outside 100..=599 and the
distinction rejection/panic are captured by a three-valued outcome. -/

inductive StatusCode where
  | code (n : Nat)
  | range (d : Nat)
deriving DecidableEq

/-- Outcome of a validation stage: `ok`, an ordinary validation rejection
(`Err(())` in the source), or a fatal specification defect (`panic!` /
`todo!` / `unwrap` failure in the source). -/
inductive VOut where
  | ok
  | rejected
  | fatal
deriving DecidableEq

/-- Embeds `ResponseValidator::extract_range_from_status_code`: leading-digit range
of a status code; `none` models the `todo!()` panic for codes outside
100..=599. -/
def extract_range_from_status_code (status_code : Nat) : Option Nat :=
  if 100 ≤ status_code ∧ status_code ≤ 199 then some 1
  else if 200 ≤ status_code ∧ status_code ≤ 299 then some 2
  else if 300 ≤ status_code ∧ status_code ≤ 399 then some 3
  else if 400 ≤ status_code ∧ status_code ≤ 499 then some 4
  else if 500 ≤ status_code ∧ status_code ≤ 599 then some 5
  else none

/-- Embeds `ResponseValidator::validate_status_code`: exact lookup first, then —
only when that fails — the `or_else` closure computes the range wildcard
(panicking on an unsupported leading digit). -/
def validate_status_code (declared : List StatusCode) (status_code : Nat) : VOut :=
  if StatusCode.code status_code ∈ declared then .ok
  else
    match extract_range_from_status_code status_code with
    | some d => if StatusCode.range d ∈ declared then .ok else .rejected
    | none => .fatal

/-! ## Path matcher

Embeds `split_path`, `Segment`, `Segment::list_from_str`,
`Segment::list_matches`, `extract_path_parameters` and the template-finding
loop of `Validator::validate_path` from `src/validators/request.rs`.
The matched path item is carried opaquely (type parameter `α`): the source
keeps a `&ReferenceOr<PathItem>` that the matching logic never inspects. -/

/-- Embeds `str::split('/')`: split a character sequence at every `'/'`, keeping
empty components (they are filtered out by `split_path`). -/
def splitOnSlash : Str → List Str
  | [] => [[]]
  | c :: rest =>
    if c = '/' then [] :: splitOnSlash rest
    else
      match splitOnSlash rest with
      | [] => [[c]]
      | s :: ss => (c :: s) :: ss

/-- Embeds `split_path`: split on `'/'` and discard empty components. -/
def split_path (path : Str) : List Str :=
  (splitOnSlash path).filter (fun component => !component.isEmpty)

/-- Embeds `Segment`: one template path segment, fixed literal or named variable. -/
inductive Segment where
  | fixed (literal : Str)
  | parameter (name : Str)
deriving DecidableEq

/-- The regex `^\{[^}]*}$` of `Segment::list_from_str`: the segment is a
`'{'`, then any characters other than `'}'`, then a final `'}'`. -/
def isParameterSegment (s : Str) : Bool :=
  match s with
  | '{' :: rest => !rest.isEmpty && rest.getLast? = some '}' && rest.dropLast.all (· ≠ '}')
  | _ => false

/-- Classification of one split segment inside `Segment::list_from_str`;
a parameter keeps `segment[1..len-1]` as its name. -/
def classifySegment (s : Str) : Segment :=
  if isParameterSegment s then .parameter (s.drop 1).dropLast else .fixed s

/-- Embeds `Segment::list_from_str`: split a specification path and classify every
segment. -/
def Segment.list_from_str (path : Str) : List Segment :=
  (split_path path).map classifySegment

/-- Embeds `Segment::matches`: a fixed segment must equal the request segment
byte-for-byte, a parameter segment matches anything. -/
def Segment.matchesSeg (s : Segment) (request_segment : Str) : Bool :=
  match s with
  | .fixed literal => literal = request_segment
  | .parameter _ => true

/-- Embeds `Segment::list_matches`: equal lengths and segment-wise match. -/
def Segment.list_matches (spec_segments : List Segment) (request_segments : List Str) : Bool :=
  if spec_segments.length ≠ request_segments.length then false
  else ((spec_segments.zip request_segments).all fun p => p.1.matchesSeg p.2)

/-- Embeds `extract_path_parameters`: the bindings of variable-segment names to the
corresponding request segments (association list in iteration order; the
source collects the same pairs into a `HashMap`). -/
def extract_path_parameters (spec_segments : List Segment) (request_segments : List Str) :
    List (Str × Str) :=
  ((spec_segments.zip request_segments).filterMap fun p =>
    match p.1 with
    | .parameter name => some (name, p.2)
    | .fixed _ => none)

/-- The body of `Validator::validate_path`: iterate the specification's path
templates in order, classify each, and take the first whose segments match
the split request path, returning its (opaque) path item together with the
extracted path-variable bindings. -/
def validate_path (paths : List (Str × α)) (request_path : Str) :
    Option (α × List (Str × Str)) :=
  let request_segments := split_path request_path
  match paths.find? (fun p => Segment.list_matches (Segment.list_from_str p.1) request_segments) with
  | some (spec_path, path_spec) =>
    some (path_spec, extract_path_parameters (Segment.list_from_str spec_path) request_segments)
  | none => none

/-! ## Operation selector

Embeds `OperationValidator::validate_operation` from
`src/validators/operation.rs`.  The path item holds one optional operation
per recognized HTTP method; operations are carried opaquely (`α`). -/

/-- Embeds `openapiv3::PathItem`, restricted to the four methods the engine
consults. -/
structure PathItemOf (α : Type) where
  get : Option α
  put : Option α
  delete : Option α
  post : Option α

/-- Embeds `OperationValidator::validate_operation`: match the method token, as
given, against the four literals (in source order), then require the
corresponding operation to be present; `none` is the rejection. -/
def validate_operation (path_spec : PathItemOf α) (operation : Str) : Option α :=
  if operation = "get".data then path_spec.get
  else if operation = "put".data then path_spec.put
  else if operation = "delete".data then path_spec.delete
  else if operation = "post".data then path_spec.post
  else none

/-- Modelled from the spec (§4.4 of the specification document, which the
specified behaviour): the same selection but lower-casing the method
token first.  Kept separate from `validate_operation`, which embeds the
source; the two are compared where they disagree. -/
def select_operation_spec (path_spec : PathItemOf α) (operation : Str) : Option α :=
  validate_operation path_spec (operation.map Char.toLower)

/-! ## Reference resolver

Embeds the `item_or_fetch_impl!` expansion from `src/item_or_fetch.rs`,
generically over the component section it indexes (the macro instantiates
it for schemas, parameters and request bodies, each with its own prefix).
`Reference` resolution calls `components.as_ref().unwrap()` and
`Index::index` — both panic when absent — and recurses on the fetched
entry; recursion depth is bounded by explicit fuel since the source
performs no cycle detection. -/

/-- Embeds `openapiv3::ReferenceOr<T>`. -/
inductive ReferenceOr (τ : Type) where
  | item (t : τ)
  | reference (ref : Str)

/-- Outcome of a fetch: a concrete item, a panic (absent component table /
absent name), or fuel exhaustion (models the unbounded recursion a cyclic
reference chain causes). -/
inductive Fetched (τ : Type) where
  | found (t : τ)
  | fatal
  | spin

/-- Embeds `str::trim_start_matches`, one step of which removes `pat` from the
front when it is a prefix; the method repeats until `pat` no longer
matches.  `pat = []` never strips (mirrors the empty-pattern behaviour of
repeatedly removing nothing). -/
def trimStartMatchesFuel (pat : Str) : Nat → Str → Str
  | 0, s => s
  | fuel + 1, s =>
    if pat ≠ [] ∧ pat.isPrefixOf s then trimStartMatchesFuel pat fuel (s.drop pat.length)
    else s

/-- Embeds `str::trim_start_matches pat s`: repeatedly strip the prefix `pat`. -/
def trim_start_matches (pat s : Str) : Str :=
  trimStartMatchesFuel pat (s.length + 1) s

/-- Embeds `ItemOrFetch::item_or_fetch` for one component section: an item is
returned as is; a reference strips the section's known prefix, indexes the
section of the (required) component table by the remaining name, and
resolves the fetched entry in turn. -/
def item_or_fetch (componentPath : Str) (section_ : List (Str × ReferenceOr τ))
    (componentsPresent : Bool) : Nat → ReferenceOr τ → Fetched τ
  | _, .item t => .found t
  | 0, .reference _ => .spin
  | fuel + 1, .reference ref =>
    if componentsPresent then
      match section_.find? (fun kv => decide (kv.1 = trim_start_matches componentPath ref)) with
      | some kv => item_or_fetch componentPath section_ componentsPresent fuel kv.2
      | none => .fatal
    else .fatal

/-! ## External collaborators and raw-body decoding

`serde_json` parsing and `jsonschema` compilation/evaluation are external
collaborators (spec §1/§6); they appear as explicit function parameters.
`std::str::from_utf8` is modelled concretely: `validate_body` only needs
UTF-8 validity and the decoded character sequence. -/

/-- Outcome of a fallible pipeline stage: success with a value, an ordinary
validation rejection (`Err(())`), a panic (`fatal`), or fuel exhaustion in
reference chasing (`spin`). -/
inductive Res (α : Type) where
  | ok (a : α)
  | rejected
  | fatal
  | spin

/-- A UTF-8 continuation byte (`0x80..=0xBF`). -/
def utf8Cont (b : Nat) : Bool := 0x80 ≤ b && b ≤ 0xBF

/-- Embeds `std::str::from_utf8` followed by reading the characters: decodes a byte
sequence, `none` on any malformed sequence (overlong forms, surrogates and
out-of-range values rejected as in the Rust standard library). -/
def utf8Decode : List Nat → Option Str
  | [] => some []
  | b₁ :: t =>
    if b₁ ≤ 0x7F then (utf8Decode t).map (fun s => Char.ofNat b₁ :: s)
    else if 0xC2 ≤ b₁ && b₁ ≤ 0xDF then
      match t with
      | b₂ :: t₂ =>
        if utf8Cont b₂ then
          (utf8Decode t₂).map (fun s => Char.ofNat ((b₁ - 0xC0) * 0x40 + (b₂ - 0x80)) :: s)
        else none
      | [] => none
    else if 0xE0 ≤ b₁ && b₁ ≤ 0xEF then
      match t with
      | b₂ :: b₃ :: t₃ =>
        if (if b₁ = 0xE0 then 0xA0 ≤ b₂ && b₂ ≤ 0xBF
            else if b₁ = 0xED then 0x80 ≤ b₂ && b₂ ≤ 0x9F
            else utf8Cont b₂) && utf8Cont b₃ then
          (utf8Decode t₃).map (fun s =>
            Char.ofNat ((b₁ - 0xE0) * 0x1000 + (b₂ - 0x80) * 0x40 + (b₃ - 0x80)) :: s)
        else none
      | _ => none
    else if 0xF0 ≤ b₁ && b₁ ≤ 0xF4 then
      match t with
      | b₂ :: b₃ :: b₄ :: t₄ =>
        if (if b₁ = 0xF0 then 0x90 ≤ b₂ && b₂ ≤ 0xBF
            else if b₁ = 0xF4 then 0x80 ≤ b₂ && b₂ ≤ 0x8F
            else utf8Cont b₂) && utf8Cont b₃ && utf8Cont b₄ then
          (utf8Decode t₄).map (fun s =>
            Char.ofNat ((b₁ - 0xF0) * 0x40000 + (b₂ - 0x80) * 0x1000
              + (b₃ - 0x80) * 0x40 + (b₄ - 0x80)) :: s)
        else none
      | _ => none
    else none

/-- The external `serde_json` / `jsonschema` collaborators:
`from_slice` on a string's bytes (as `JSONSchemaValidator::validates`
uses it), `from_slice` on a raw body, and
`JSONSchema::compile`/`is_valid` (compile is fallible). -/
structure Collaborators where
  jsonParseStr : Str → Option JSON
  jsonParseBytes : List Nat → Option JSON
  compile : JSON → Option (JSON → Bool)

/-- Embeds `JSONSchemaValidator::validates` (snapshot
`src/validators/jsonschema.rs`, the module the current pipeline imports as
`crate::jsonschema`): parse the instance first, then compile the schema,
then evaluate; any failure is an ordinary rejection (`false`). -/
def validates (C : Collaborators) (schema : JSON) (input : Str) : Bool :=
  match C.jsonParseStr input with
  | none => false
  | some json_parameter =>
    match C.compile schema with
    | none => false
    | some is_valid => is_valid json_parameter

/-! ## Specification data model

`openapiv3` request-body, media-type, parameter, operation and component
structures, generic over the schema payload `σ` (schema nodes are only ever
resolved and handed to the translator, embodied by a `σ → JSON` argument
where needed). -/

/-- Embeds `openapiv3::MediaType` (the part the engine reads). -/
structure MediaType (σ : Type) where
  schema : Option (ReferenceOr σ)

/-- Embeds `openapiv3::RequestBody` (the part the engine reads). -/
structure RequestBody (σ : Type) where
  required : Bool
  content : List (Str × MediaType σ)

/-- Embeds `openapiv3::ParameterData` (the part the engine reads). -/
structure ParameterData (σ : Type) where
  name : Str
  required : Bool
  format : Option (ReferenceOr σ)

/-- Embeds `openapiv3::Parameter`: the capability tag.  `format = none` stands for
`ParameterSchemaOrContent::Content`, which the source answers with
`todo!()`. -/
inductive Parameter (σ : Type) where
  | header (parameter_data : ParameterData σ)
  | query (parameter_data : ParameterData σ)
  | path (parameter_data : ParameterData σ)
  | cookie (parameter_data : ParameterData σ)

/-- Embeds `openapiv3::Parameter::parameter_data`. -/
def Parameter.parameter_data : Parameter σ → ParameterData σ
  | .header d => d
  | .query d => d
  | .path d => d
  | .cookie d => d

/-- Embeds `openapiv3::Operation` (the part the engine reads). -/
structure Operation (σ : Type) where
  parameters : List (ReferenceOr (Parameter σ))
  request_body : Option (ReferenceOr (RequestBody σ))
  responses : List StatusCode

/-- Embeds `openapiv3::Components`: the shared component table's sections. -/
structure Components (σ : Type) where
  schemas : List (Str × ReferenceOr σ)
  parameters : List (Str × ReferenceOr (Parameter σ))
  request_bodies : List (Str × ReferenceOr (RequestBody σ))

/-- Embeds `schema.item_or_fetch(components)` at the schemas section. -/
def fetchSchema (comps : Option (Components σ)) (fuel : Nat) (r : ReferenceOr σ) : Fetched σ :=
  item_or_fetch "#/components/schemas/".data
    (match comps with | some c => c.schemas | none => []) comps.isSome fuel r

/-- Embeds `parameter.item_or_fetch(components)` at the parameters section. -/
def fetchParameter (comps : Option (Components σ)) (fuel : Nat) (r : ReferenceOr (Parameter σ)) :
    Fetched (Parameter σ) :=
  item_or_fetch "#/components/parameters/".data
    (match comps with | some c => c.parameters | none => []) comps.isSome fuel r

/-- Embeds `body_spec.item_or_fetch(components)` at the requestBodies section. -/
def fetchRequestBody (comps : Option (Components σ)) (fuel : Nat)
    (r : ReferenceOr (RequestBody σ)) : Fetched (RequestBody σ) :=
  item_or_fetch "#/components/requestBodies/".data
    (match comps with | some c => c.request_bodies | none => []) comps.isSome fuel r

/-! ## Content negotiator and body validator

Embeds `ContentTypeValidator::validate_content_type` from
`src/content_type.rs` and `BodyValidator::validate_body` /
`BodyValidator::validate_json` from `src/body.rs` (current snapshots; the
superseded `src/validators/*` twins carry the same decision logic). -/

/-- The `BodyValidator` modes of `src/body.rs` (the source's `JSONBody` and
`EmptyContentType` carry the body specification; `components` is threaded
separately here). -/
inductive BodyValidatorMode (σ : Type) where
  | noSpecification
  | emptyContentType (body_spec : RequestBody σ)
  | jsonBody (body_spec : RequestBody σ)
  | plainUTF8Body

/-- Embeds `ContentTypeValidator::validate_content_type`: no declared body ⇒
`NoSpecification`; otherwise resolve the body specification, then: header
present and its value declared ⇒ `JSONBody` / `PlainUTF8Body` for the two
supported types and rejection for any other declared type; header present
but undeclared ⇒ rejection; no header ⇒ `EmptyContentType`. -/
def validate_content_type (comps : Option (Components σ)) (fuel : Nat) (op : Operation σ)
    (content_type : Option Str) : Res (BodyValidatorMode σ) :=
  match op.request_body with
  | none => .ok .noSpecification
  | some r =>
    match fetchRequestBody comps fuel r with
    | .fatal => .fatal
    | .spin => .spin
    | .found body_spec =>
      match content_type with
      | some ct =>
        if (body_spec.content.find? (fun kv => decide (kv.1 = ct))).isSome then
          if ct = "application/json".data then .ok (.jsonBody body_spec)
          else if ct = "text/plain; charset=utf-8".data then .ok .plainUTF8Body
          else .rejected
        else .rejected
      | none => .ok (.emptyContentType body_spec)

/-- Embeds `BodyValidator::validate_json`: when the `application/json` entry
declares a schema, resolve it, require the body to be UTF-8 and validate it
against the translated schema; with no declared schema, accept exactly the
bodies `serde_json` parses. -/
def validate_json (C : Collaborators) (comps : Option (Components σ)) (fuel : Nat)
    (toSchema : σ → JSON) (body_spec : RequestBody σ) (body : List Nat) : Res Unit :=
  match ((body_spec.content.find? (fun kv => decide (kv.1 = "application/json".data))).bind
      (fun kv => kv.2.schema.map (fetchSchema comps fuel))) with
  | some .fatal => .fatal
  | some .spin => .spin
  | some (.found schema) =>
    match utf8Decode body with
    | none => .rejected
    | some s => if validates C (toSchema schema) s then .ok () else .rejected
  | none => if (C.jsonParseBytes body).isSome then .ok () else .rejected

/-- Embeds `BodyValidator::validate_body`: dispatch on the negotiated mode.  The
`required` flag is consulted only in the `EmptyContentType` arm. -/
def validate_body (C : Collaborators) (comps : Option (Components σ)) (fuel : Nat)
    (toSchema : σ → JSON) (mode : BodyValidatorMode σ) (body : List Nat) : Res Unit :=
  match mode with
  | .jsonBody body_spec => validate_json C comps fuel toSchema body_spec body
  | .plainUTF8Body => if (utf8Decode body).isSome then .ok () else .rejected
  | .emptyContentType body_spec =>
    if !body_spec.required && body.isEmpty then .ok () else .rejected
  | .noSpecification => .ok ()

/-! ## Parameter validator

Embeds `ParameterValidator::validate` and
`ParametersValidator::validate_parameters` from `src/parameters.rs`
(current snapshot: candidate lookup by capability — header, query, path —
then the required/found policy; the superseded `src/validators/parameters.rs`
instead accepted any optional parameter without checking a found value). -/

/-- Embeds `Request::get_header` / `HashMap::get`: case-sensitive lookup. -/
def get_header (headers : List (Str × Str)) (key : Str) : Option Str :=
  (headers.find? (fun kv => decide (kv.1 = key))).map (·.2)

/-- Embeds `ExtractQueryParameter::extract_query_parameter`: first query pair whose
key equals the name. -/
def extract_query_parameter (query_pairs : List (Str × Str)) (name : Str) : Option Str :=
  (query_pairs.find? (fun kv => decide (kv.1 = name))).map (·.2)

/-- Embeds `HashMap` lookup in the bindings built by `extract_path_parameters`
(collecting into a `HashMap` lets a later duplicate key overwrite an
earlier one, hence the lookup takes the last binding). -/
def path_parameter_get (path_parameters : List (Str × Str)) (name : Str) : Option Str :=
  (path_parameters.reverse.find? (fun kv => decide (kv.1 = name))).map (·.2)

/-- Embeds `ParameterValidator::validate` for one declared parameter: extract the
candidate raw value by capability (`todo!()` for cookie parameters), then:
no candidate and optional ⇒ accept; no candidate and required ⇒ reject;
candidate found ⇒ resolve the schema (`todo!()` for content-style
parameters), translate it and let the collaborator decide. -/
def parameter_validate (C : Collaborators) (comps : Option (Components σ)) (fuel : Nat)
    (toSchema : σ → JSON) (p : Parameter σ) (headers : List (Str × Str))
    (query_pairs : List (Str × Str)) (path_parameters : List (Str × Str)) : Res Unit :=
  let d := p.parameter_data
  match p with
  | .cookie _ => .fatal
  | _ =>
    let parameter_value : Option Str :=
      match p with
      | .header _ => get_header headers d.name
      | .query _ => extract_query_parameter query_pairs d.name
      | _ => path_parameter_get path_parameters d.name
    match parameter_value with
    | none => if !d.required then .ok () else .rejected
    | some value =>
      match d.format with
      | none => .fatal
      | some schema_ref =>
        match fetchSchema comps fuel schema_ref with
        | .fatal => .fatal
        | .spin => .spin
        | .found schema => if validates C (toSchema schema) value then .ok () else .rejected

/-- Embeds `ParametersValidator::validate_parameters`: every declared parameter is
resolved and validated; the iterator's `all(..is_ok())` stops at the first
rejection, and a panic inside a parameter propagates. -/
def validate_parameters (C : Collaborators) (comps : Option (Components σ)) (fuel : Nat)
    (toSchema : σ → JSON) (params : List (ReferenceOr (Parameter σ)))
    (headers : List (Str × Str)) (query_pairs : List (Str × Str))
    (path_parameters : List (Str × Str)) : Res Unit :=
  match params with
  | [] => .ok ()
  | r :: rest =>
    match fetchParameter comps fuel r with
    | .fatal => .fatal
    | .spin => .spin
    | .found p =>
      match parameter_validate C comps fuel toSchema p headers query_pairs path_parameters with
      | .ok _ => validate_parameters C comps fuel toSchema rest headers query_pairs path_parameters
      | .rejected => .rejected
      | .fatal => .fatal
      | .spin => .spin

/-! ## Pipeline orchestrator

Embeds `Validator::validate_request` from `src/validators/request.rs`: URL
parsing (the external `url` crate, a function parameter) short-circuits the
five-stage pipeline before path matching.  The stage bodies are the current
modules embedded above. -/

/-- What the engine reads from a parsed `url::Url`: the path and the query
pairs. -/
structure UrlT where
  path : Str
  query_pairs : List (Str × Str)

/-- The `Request` the validator consumes. -/
structure RequestR where
  url : Str
  operation : Str
  body : List Nat
  headers : List (Str × Str)

/-- One parsed OpenAPI document (the parts the engine reads). -/
structure API (σ : Type) where
  paths : List (Str × ReferenceOr (PathItemOf (Operation σ)))
  components : Option (Components σ)

/-- Embeds `Validator::validate_request`: parse the URL (rejection on failure),
then path → operation → parameters → content type → body, short-circuiting
on the first rejection; `as_item().unwrap()` on a referenced path item is a
panic. -/
def validate_request (parseUrl : Str → Option UrlT) (C : Collaborators) (toSchema : σ → JSON)
    (fuel : Nat) (api : API σ) (request : RequestR) : Res Unit :=
  match parseUrl request.url with
  | none => .rejected
  | some url =>
    match validate_path api.paths url.path with
    | none => .rejected
    | some (ref_or_item, path_parameters) =>
      match ref_or_item with
      | .reference _ => .fatal
      | .item path_spec =>
        match validate_operation path_spec request.operation with
        | none => .rejected
        | some operation_spec =>
          match validate_parameters C api.components fuel toSchema operation_spec.parameters
              request.headers url.query_pairs path_parameters with
          | .ok _ =>
            match validate_content_type api.components fuel operation_spec
                (get_header request.headers "Content-Type".data) with
            | .ok mode => validate_body C api.components fuel toSchema mode request.body
            | .rejected => .rejected
            | .fatal => .fatal
            | .spin => .spin
          | .rejected => .rejected
          | .fatal => .fatal
          | .spin => .spin

/-- Concrete collaborator instantiation used by closed theorems whose
evaluated branches never consult the external parsers/compiler. -/
def stubCollaborators : Collaborators :=
  { jsonParseStr := fun _ => none
    jsonParseBytes := fun _ => none
    compile := fun _ => none }


/-! ## Properties -/

example : validate_status_code [.range 2] 250 = .ok := by decide
example : validate_status_code [.range 2] 404 = .rejected := by decide
example : validate_status_code [.code 200] 200 = .ok := by decide

example : split_path "/users/{id}".data = ["users".data, "{id}".data] := by decide
example : split_path "//users//3/".data = ["users".data, "3".data] := by decide
example :
    validate_path [("/a/{x}".data, 0), ("/a/b".data, 1)] "/a/b".data
      = some (0, [("x".data, "b".data)]) := by decide
example :
    validate_path [("/a/c".data, 0), ("/a/b".data, 1)] "/a/b".data = some (1, []) := by decide

example :
    trim_start_matches "#/components/schemas/".data "#/components/schemas/Test".data
      = "Test".data := by decide

example : utf8Decode [] = some [] := by decide
example : utf8Decode [0x61, 0x62] = some "ab".data := by decide
example : utf8Decode [0xC3, 0x28] = none := by decide
/-- C7: in `src/jsonschema.rs` (superseded snapshot), a Number/Integer node
with `exclusive_minimum = false` and `exclusive_maximum = true` is
translated with the key `exclusiveMaximum` bound to `false` — the
`exclusive_minimum` value is copied under the `exclusiveMaximum` key —
while the current `src/to_jsonschema.rs` translation binds it to `true` as
the claim states.  Evaluation of both translations at the failing input. -/
theorem c7_exclusive_maximum_copy_paste :
    (NumberType.to_json_schema_old
        ⟨none, false, true, none, none, []⟩).lookup "exclusiveMaximum".data
      = some (.bool false)
    ∧ (NumberType.to_json_schema
        ⟨none, false, true, none, none, []⟩).lookup "exclusiveMaximum".data
      = some (.bool true)
    ∧ (IntegerType.to_json_schema_old
        ⟨none, false, true, none, none, []⟩).lookup "exclusiveMaximum".data
      = some (.bool false)
    ∧ (IntegerType.to_json_schema
        ⟨none, false, true, none, none, []⟩).lookup "exclusiveMaximum".data
      = some (.bool true) :=
  ⟨rfl, rfl, rfl, rfl⟩

/-- C4 counterexample: a status code whose leading digit is outside 1–5 but
which is declared exactly is accepted — not a fatal unsupported condition —
because the exact lookup precedes the `or_else` range computation. -/
theorem c4_counterexample_exact_declared_600 :
    validate_status_code [.code 600] 600 = .ok := by decide

lemma extract_range_in_range (c : Nat) (h1 : 100 ≤ c) (h2 : c ≤ 599) :
    extract_range_from_status_code c = some (c / 100) := by
  unfold extract_range_from_status_code
  split_ifs with ha hb hc hd he
  · have : c / 100 = 1 := by omega
    rw [this]
  · have : c / 100 = 2 := by omega
    rw [this]
  · have : c / 100 = 3 := by omega
    rw [this]
  · have : c / 100 = 4 := by omega
    rw [this]
  · have : c / 100 = 5 := by omega
    rw [this]
  · omega

lemma extract_range_out_of_range (c : Nat) (h : c < 100 ∨ 599 < c) :
    extract_range_from_status_code c = none := by
  unfold extract_range_from_status_code
  split_ifs <;> first | rfl | omega

/-- C4 (amended): for status codes in [100,599], validation accepts exactly
when the code is declared or its leading-digit wildcard is declared and is
otherwise an ordinary rejection, never fatal; for codes whose leading digit
is outside 1–5, validation accepts exactly when the code is declared
exactly, and is otherwise fatal — never an ordinary rejection. -/
theorem c4_status_code_range_law (declared : List StatusCode) (c : Nat) :
    (100 ≤ c → c ≤ 599 →
      (validate_status_code declared c = .ok
        ↔ (StatusCode.code c ∈ declared ∨ StatusCode.range (c / 100) ∈ declared))
      ∧ validate_status_code declared c ≠ .fatal)
    ∧ ((c < 100 ∨ 599 < c) →
      (validate_status_code declared c = .ok ↔ StatusCode.code c ∈ declared)
      ∧ validate_status_code declared c ≠ .rejected) := by
  constructor
  · intro h1 h2
    unfold validate_status_code
    rw [extract_range_in_range c h1 h2]
    by_cases hc : StatusCode.code c ∈ declared
    · simp [hc]
    · by_cases hr : StatusCode.range (c / 100) ∈ declared <;> simp [hc, hr]
  · intro h
    unfold validate_status_code
    rw [extract_range_out_of_range c h]
    by_cases hc : StatusCode.code c ∈ declared <;> simp [hc]

/-- C4 witness: status 250 against a specification declaring only `2XX` is
accepted; status 600 undeclared is fatal, not rejected. -/
theorem c4_status_code_range_law_witness :
    validate_status_code [.range 2] 250 = .ok
    ∧ validate_status_code [] 600 ≠ .rejected :=
  ⟨((c4_status_code_range_law [.range 2] 250).1 (by decide) (by decide)).1.mpr
      (Or.inr (by decide)),
    ((c4_status_code_range_law [] 600).2 (by decide)).2⟩

/-- C10: when the request's URL string does not parse, `validate_request`
is an ordinary validation rejection for every specification, every
collaborator and every request body/method — independence from the
specification shows the pipeline stops before path matching, operation
selection or parameter validation, and the outcome is `rejected`, not the
`fatal` that models a panic. -/
theorem c10_unparsable_url_rejected (σ : Type) (parseUrl : Str → Option UrlT)
    (C : Collaborators) (toSchema : σ → JSON) (fuel : Nat) (api : API σ) (request : RequestR)
    (h : parseUrl request.url = none) :
    validate_request parseUrl C toSchema fuel api request = .rejected := by
  unfold validate_request
  rw [h]

/-- C10 witness: a URL parser that fails on the given URL yields a
rejection at a concrete specification and request. -/
theorem c10_unparsable_url_rejected_witness :
    validate_request (σ := Unit) (fun _ => none) stubCollaborators (fun _ => JSON.null) 1
      ⟨[("/ping".data, .item ⟨some ⟨[], none, [.code 200]⟩, none, none, none⟩)], none⟩
      ⟨"test.com/ping".data, "get".data, [], []⟩ = .rejected :=
  c10_unparsable_url_rejected Unit (fun _ => none) stubCollaborators (fun _ => JSON.null) 1
    ⟨[("/ping".data, .item ⟨some ⟨[], none, [.code 200]⟩, none, none, none⟩)], none⟩
    ⟨"test.com/ping".data, "get".data, [], []⟩ rfl

/-- C6 counterexample: the source does not lower-case the method token —
`"GET"` against a path item that declares a `get` operation is rejected by
`validate_operation`, while the claim's lower-casing selection
(`select_operation_spec`) would return the operation. -/
theorem c6_counterexample_uppercase_get :
    validate_operation (⟨some 7, none, none, none⟩ : PathItemOf Nat) "GET".data = none
    ∧ select_operation_spec (⟨some 7, none, none, none⟩ : PathItemOf Nat) "GET".data
      = some 7 := by
  constructor <;> decide

/-- C6 (amended): operation selection compares the method token as given —
case-sensitively, with no lower-casing — against exactly `get`, `put`,
`delete`, `post`, returning the corresponding operation (absence being a
rejection); every other token is rejected. -/
theorem c6_operation_selection (α : Type) (path_spec : PathItemOf α) :
    (validate_operation path_spec "get".data = path_spec.get
      ∧ validate_operation path_spec "put".data = path_spec.put
      ∧ validate_operation path_spec "delete".data = path_spec.delete
      ∧ validate_operation path_spec "post".data = path_spec.post)
    ∧ ∀ tok : Str, tok ≠ "get".data → tok ≠ "put".data → tok ≠ "delete".data →
        tok ≠ "post".data → validate_operation path_spec tok = none := by
  constructor
  · refine ⟨rfl, ?_, ?_, ?_⟩ <;> simp [validate_operation]
  · intro tok h1 h2 h3 h4
    simp [validate_operation, h1, h2, h3, h4]

/-- C6 witness: the four recognized lower-case tokens select their
operations and an unrecognized token is rejected, at a concrete path
item. -/
theorem c6_operation_selection_witness :
    validate_operation (⟨some 1, some 2, some 3, some 4⟩ : PathItemOf Nat) "post".data = some 4
    ∧ validate_operation (⟨some 1, some 2, some 3, some 4⟩ : PathItemOf Nat) "patch".data
      = none :=
  ⟨(c6_operation_selection Nat ⟨some 1, some 2, some 3, some 4⟩).1.2.2.2,
    (c6_operation_selection Nat ⟨some 1, some 2, some 3, some 4⟩).2 "patch".data
      (by decide) (by decide) (by decide) (by decide)⟩

lemma item_or_fetch_item (componentPath : Str) (section_ : List (Str × ReferenceOr τ))
    (componentsPresent : Bool) (fuel : Nat) (t : τ) :
    item_or_fetch componentPath section_ componentsPresent fuel (.item t) = .found t := by
  cases fuel <;> rfl

lemma fetchSchema_item (comps : Option (Components σ)) (fuel : Nat) (s : σ) :
    fetchSchema comps fuel (.item s) = .found s := by
  unfold fetchSchema
  exact item_or_fetch_item _ _ _ _ _

lemma fetchRequestBody_item (comps : Option (Components σ)) (fuel : Nat) (b : RequestBody σ) :
    fetchRequestBody comps fuel (.item b) = .found b := by
  unfold fetchRequestBody
  exact item_or_fetch_item _ _ _ _ _

lemma fetchParameter_item (comps : Option (Components σ)) (fuel : Nat) (p : Parameter σ) :
    fetchParameter comps fuel (.item p) = .found p := by
  unfold fetchParameter
  exact item_or_fetch_item _ _ _ _ _

/-- An empty body is rejected by `validate_json` whenever the collaborator
parses the empty input as no JSON document (as `serde_json` does) and every
schema declared in the content map is inline. -/
lemma validate_json_empty_rejected (σ : Type) (C : Collaborators)
    (comps : Option (Components σ)) (fuel : Nat) (toSchema : σ → JSON)
    (body_spec : RequestBody σ)
    (hps : C.jsonParseStr [] = none) (hpb : C.jsonParseBytes [] = none)
    (hinline : ∀ mt ∈ body_spec.content, ∀ r, mt.2.schema = some r →
      ∃ s, r = ReferenceOr.item s) :
    validate_json C comps fuel toSchema body_spec [] = .rejected := by
  unfold validate_json
  rcases hfind : body_spec.content.find? (fun kv => decide (kv.1 = "application/json".data))
    with _ | kv
  · simp [hfind, hpb]
  · rcases hsch : kv.2.schema with _ | r
    · simp [hfind, hsch, hpb]
    · obtain ⟨s, rfl⟩ := hinline kv (List.mem_of_find?_eq_some hfind) r hsch
      have hfetch : fetchSchema comps fuel (ReferenceOr.item s) = .found s :=
        fetchSchema_item comps fuel s
      have hdec : utf8Decode [] = some [] := rfl
      simp [hfind, hsch, hfetch, hdec, validates, hps]

/-- C1 counterexample: a request body declared `required: true` whose
content map declares `text/plain; charset=utf-8`, a matching Content-Type
header, and the empty body: negotiation selects `PlainUTF8Body` and body
validation accepts (the empty byte sequence is valid UTF-8; the `required`
flag is not consulted in this mode), while the claim demands rejection in
every selectable mode. -/
theorem c1_counterexample_plain_utf8_required_empty :
    validate_content_type (σ := Unit) none 1
        ⟨[], some (.item ⟨true, [("text/plain; charset=utf-8".data, ⟨none⟩)]⟩), [.code 200]⟩
        (some "text/plain; charset=utf-8".data)
      = .ok .plainUTF8Body
    ∧ validate_body stubCollaborators none 1 (fun _ : Unit => JSON.null) .plainUTF8Body []
      = .ok () :=
  ⟨rfl, rfl⟩

/-- C1 (amended): with `required: true`, the empty body is rejected in the
`EmptyContentType` mode (the only mode that consults the flag) and in the
`JSONBody` mode (empty input parses as no JSON document, whether or not a
schema is declared), but it is accepted in the `PlainUTF8Body` mode: no
required-versus-empty check precedes content-specific validation. -/
theorem c1_required_empty_body (σ : Type) (C : Collaborators)
    (comps : Option (Components σ)) (fuel : Nat) (toSchema : σ → JSON)
    (body_spec : RequestBody σ) (hreq : body_spec.required = true)
    (hps : C.jsonParseStr [] = none) (hpb : C.jsonParseBytes [] = none)
    (hinline : ∀ mt ∈ body_spec.content, ∀ r, mt.2.schema = some r →
      ∃ s, r = ReferenceOr.item s) :
    validate_body C comps fuel toSchema (.emptyContentType body_spec) [] = .rejected
    ∧ validate_body C comps fuel toSchema (.jsonBody body_spec) [] = .rejected
    ∧ validate_body C comps fuel toSchema .plainUTF8Body [] = .ok () := by
  refine ⟨?_, ?_, rfl⟩
  · simp [validate_body, hreq]
  · simp only [validate_body]
    exact validate_json_empty_rejected σ C comps fuel toSchema body_spec hps hpb hinline

/-- C1 witness: the amended statement at a concrete `required: true` body
specification with inline-only content. -/
theorem c1_required_empty_body_witness :
    validate_body stubCollaborators none 1 (fun _ : Unit => JSON.null)
        (.emptyContentType ⟨true, []⟩) [] = .rejected
    ∧ validate_body stubCollaborators none 1 (fun _ : Unit => JSON.null)
        (.jsonBody ⟨true, []⟩) [] = .rejected
    ∧ validate_body stubCollaborators none 1 (fun _ : Unit => JSON.null) .plainUTF8Body []
      = .ok () :=
  c1_required_empty_body Unit stubCollaborators none 1 (fun _ => JSON.null) ⟨true, []⟩ rfl rfl
    rfl (by intro mt hmt; exact absurd hmt (List.not_mem_nil mt))

/-- C2 counterexample: `required: false`, empty body, and a Content-Type
header naming a type that IS declared in the content map (`image/png`):
negotiation rejects (the type is declared but unsupported), while the claim
allows rejection only for a header naming a type absent from the content
map. -/
theorem c2_counterexample_declared_unsupported_type :
    validate_content_type (σ := Unit) none 1
        ⟨[], some (.item ⟨false, [("image/png".data, ⟨none⟩)]⟩), [.code 200]⟩
        (some "image/png".data)
      = .rejected :=
  rfl

/-- C2 (amended): with `required: false` and an empty body, validation
accepts when no Content-Type header is present and when the header names a
declared `text/plain; charset=utf-8`; it rejects when the header names a
type absent from the content map, when it names a declared type other than
the two supported ones, and when it names a declared `application/json`
(the empty body parses as no JSON document). -/
theorem c2_optional_empty_body (σ : Type) (C : Collaborators)
    (comps : Option (Components σ)) (fuel : Nat) (toSchema : σ → JSON)
    (ps : List (ReferenceOr (Parameter σ))) (rs : List StatusCode)
    (body_spec : RequestBody σ) (hreq : body_spec.required = false)
    (hps : C.jsonParseStr [] = none) (hpb : C.jsonParseBytes [] = none)
    (hinline : ∀ mt ∈ body_spec.content, ∀ r, mt.2.schema = some r →
      ∃ s, r = ReferenceOr.item s) :
    (validate_content_type comps fuel ⟨ps, some (.item body_spec), rs⟩ none
        = .ok (.emptyContentType body_spec)
      ∧ validate_body C comps fuel toSchema (.emptyContentType body_spec) [] = .ok ())
    ∧ (∀ ct : Str, body_spec.content.find? (fun kv => decide (kv.1 = ct)) = none →
        validate_content_type comps fuel ⟨ps, some (.item body_spec), rs⟩ (some ct)
          = .rejected)
    ∧ (∀ ct : Str, (body_spec.content.find? (fun kv => decide (kv.1 = ct))).isSome →
        ct ≠ "application/json".data → ct ≠ "text/plain; charset=utf-8".data →
        validate_content_type comps fuel ⟨ps, some (.item body_spec), rs⟩ (some ct)
          = .rejected)
    ∧ ((body_spec.content.find?
          (fun kv => decide (kv.1 = "text/plain; charset=utf-8".data))).isSome →
        validate_content_type comps fuel ⟨ps, some (.item body_spec), rs⟩
            (some "text/plain; charset=utf-8".data) = .ok .plainUTF8Body
        ∧ validate_body C comps fuel toSchema .plainUTF8Body [] = .ok ())
    ∧ ((body_spec.content.find?
          (fun kv => decide (kv.1 = "application/json".data))).isSome →
        validate_content_type comps fuel ⟨ps, some (.item body_spec), rs⟩
            (some "application/json".data) = .ok (.jsonBody body_spec)
        ∧ validate_body C comps fuel toSchema (.jsonBody body_spec) [] = .rejected) := by
  have hbody : fetchRequestBody comps fuel (ReferenceOr.item body_spec) = .found body_spec :=
    fetchRequestBody_item comps fuel body_spec
  refine ⟨⟨?_, ?_⟩, ?_, ?_, ?_, ?_⟩
  · simp [validate_content_type, hbody]
  · simp [validate_body, hreq]
  · intro ct hct
    simp [validate_content_type, hbody, hct]
  · intro ct hct hjson hplain
    simp [validate_content_type, hbody, hct, hjson, hplain]
  · intro hct
    refine ⟨?_, rfl⟩
    simp [validate_content_type, hbody, hct]
  · intro hct
    refine ⟨?_, ?_⟩
    · simp [validate_content_type, hbody, hct]
    · simp only [validate_body]
      exact validate_json_empty_rejected σ C comps fuel toSchema body_spec hps hpb hinline

/-- C2 witness: the amended statement at a concrete `required: false` body
specification declaring both supported content types inline. -/
theorem c2_optional_empty_body_witness :
    validate_content_type (σ := Unit) none 1
        ⟨[], some (.item ⟨false, [("application/json".data, ⟨none⟩)]⟩), []⟩ none
      = .ok (.emptyContentType ⟨false, [("application/json".data, ⟨none⟩)]⟩)
    ∧ validate_content_type (σ := Unit) none 1
        ⟨[], some (.item ⟨false, [("application/json".data, ⟨none⟩)]⟩), []⟩
        (some "application/json".data)
      = .ok (.jsonBody ⟨false, [("application/json".data, ⟨none⟩)]⟩) := by
  have h := c2_optional_empty_body Unit stubCollaborators none 1 (fun _ => JSON.null) [] []
    ⟨false, [("application/json".data, ⟨none⟩)]⟩ rfl rfl rfl
    (by
      intro mt hmt r hr
      rw [List.mem_singleton] at hmt
      subst hmt
      exact absurd hr (by simp))
  exact ⟨h.1.1, (h.2.2.2.2 (by decide)).1⟩

lemma list_matches_cons (s : Segment) (ss : List Segment) (r : Str) (rs : List Str) :
    Segment.list_matches (s :: ss) (r :: rs) = (s.matchesSeg r && Segment.list_matches ss rs) := by
  by_cases h : ss.length = rs.length
  · simp [Segment.list_matches, h]
  · simp [Segment.list_matches, h]

lemma list_matches_eq_forall₂ (ss : List Segment) (rs : List Str) :
    Segment.list_matches ss rs = true
      ↔ List.Forall₂ (fun s r => s.matchesSeg r = true) ss rs := by
  induction ss generalizing rs with
  | nil =>
    cases rs with
    | nil => simp [Segment.list_matches, List.forall₂_nil_left_iff]
    | cons r rs => simp [Segment.list_matches, List.forall₂_nil_left_iff]
  | cons s ss ih =>
    cases rs with
    | nil => simp [Segment.list_matches, List.forall₂_nil_right_iff]
    | cons r rs =>
      rw [list_matches_cons, List.forall₂_cons, Bool.and_eq_true, ih]

lemma matchesSeg_iff (s : Segment) (r : Str) :
    s.matchesSeg r = true ↔ ∀ lit : Str, s = .fixed lit → r = lit := by
  cases s with
  | fixed l =>
    simp only [Segment.matchesSeg, decide_eq_true_eq]
    constructor
    · intro h lit hl
      injection hl with h2
      rw [← h2, h]
    · intro h
      exact (h l rfl).symm
  | parameter n => simp [Segment.matchesSeg]

lemma validate_path_eq (paths : List (Str × α)) (request_path : Str) :
    validate_path paths request_path
      = (paths.find? (fun p =>
            Segment.list_matches (Segment.list_from_str p.1) (split_path request_path))).map
          (fun p =>
            (p.2, extract_path_parameters (Segment.list_from_str p.1)
              (split_path request_path))) := by
  unfold validate_path
  rcases h : paths.find? (fun p =>
      Segment.list_matches (Segment.list_from_str p.1) (split_path request_path)) with _ | ⟨sp, it⟩
  · simp [h]
  · simp [h]

lemma find?_first_after_misses (p? : β → Bool) (pre : List β) (x : β) (post : List β)
    (hpre : ∀ b ∈ pre, p? b = false) (hx : p? x = true) :
    (pre ++ x :: post).find? p? = some x := by
  induction pre with
  | nil => simp [List.find?_cons_of_pos, hx]
  | cons b pre ih =>
    rw [List.cons_append, List.find?_cons_of_neg]
    · exact ih fun b' hb => hpre b' (List.mem_cons_of_mem _ hb)
    · simp [hpre b (List.mem_cons_self b pre)]

/-- C3: (1) a template's segment list matches a request's segment list
exactly when they have equal length and every `fixed` template segment
equals the corresponding request segment (`parameter` segments match any
segment); (2) among the specification's templates, the first one in
iteration order whose segments match is the one selected, together with its
extracted path-variable bindings. -/
theorem c3_path_matching :
    (∀ (spec_segments : List Segment) (request_segments : List Str),
      Segment.list_matches spec_segments request_segments = true ↔
        (spec_segments.length = request_segments.length ∧
          ∀ (i : Nat) (h1 : i < spec_segments.length) (h2 : i < request_segments.length)
            (lit : Str), spec_segments.get ⟨i, h1⟩ = .fixed lit →
              request_segments.get ⟨i, h2⟩ = lit))
    ∧ ∀ (α : Type) (pre : List (Str × α)) (tpl : Str) (item : α) (post : List (Str × α))
        (request_path : Str),
        (∀ p ∈ pre,
          Segment.list_matches (Segment.list_from_str p.1) (split_path request_path)
            = false) →
        Segment.list_matches (Segment.list_from_str tpl) (split_path request_path) = true →
        validate_path (pre ++ (tpl, item) :: post) request_path
          = some (item,
              extract_path_parameters (Segment.list_from_str tpl)
                (split_path request_path)) := by
  constructor
  · intro ss rs
    rw [list_matches_eq_forall₂, List.forall₂_iff_get]
    constructor
    · rintro ⟨hlen, hget⟩
      exact ⟨hlen, fun i h1 h2 lit hfix => (matchesSeg_iff _ _).mp (hget i h1 h2) lit hfix⟩
    · rintro ⟨hlen, hget⟩
      exact ⟨hlen, fun i h1 h2 => (matchesSeg_iff _ _).mpr fun lit hfix => hget i h1 h2 lit hfix⟩
  · intro α pre tpl item post request_path hpre hx
    rw [validate_path_eq,
      find?_first_after_misses _ pre (tpl, item) post hpre hx]
    rfl

/-- C3 witness: with templates `/a/c` (non-matching) before `/a/{x}`
(matching), request `/a/b` selects the second template and binds `x` to
`b`. -/
theorem c3_path_matching_witness :
    validate_path [("/a/c".data, (0 : Nat)), ("/a/{x}".data, 1)] "/a/b".data
      = some (1, [("x".data, "b".data)]) := by
  have h := c3_path_matching.2 Nat [("/a/c".data, 0)] "/a/{x}".data 1 [] "/a/b".data
    (by decide) (by decide)
  exact h.trans (by decide)

lemma splitOnSlash_ne_nil (p : Str) : splitOnSlash p ≠ [] := by
  induction p with
  | nil => simp [splitOnSlash]
  | cons c p ih =>
    by_cases h : c = '/'
    · simp [splitOnSlash, h]
    · simp only [splitOnSlash, if_neg h]
      rcases hs : splitOnSlash p with _ | ⟨s, ss⟩
      · simp
      · simp

lemma splitOnSlash_cons_slash (p : Str) : splitOnSlash ('/' :: p) = [] :: splitOnSlash p := by
  simp [splitOnSlash]

lemma splitOnSlash_append_slash (p : Str) :
    splitOnSlash (p ++ ['/']) = splitOnSlash p ++ [[]] := by
  induction p with
  | nil => simp [splitOnSlash]
  | cons c p ih =>
    by_cases h : c = '/'
    · subst h
      rw [List.cons_append, splitOnSlash_cons_slash, splitOnSlash_cons_slash, ih]
      rfl
    · rw [List.cons_append]
      simp only [splitOnSlash, if_neg h]
      rw [ih]
      rcases hs : splitOnSlash p with _ | ⟨s, ss⟩
      · exact absurd hs (splitOnSlash_ne_nil p)
      · simp

lemma split_path_cons_slash (p : Str) : split_path ('/' :: p) = split_path p := by
  simp [split_path, splitOnSlash_cons_slash]

lemma split_path_append_slash (p : Str) : split_path (p ++ ['/']) = split_path p := by
  simp [split_path, splitOnSlash_append_slash]

/-- C9: appending a trailing slash or prepending a further leading slash to
the request path changes neither the matching result nor the extracted
path-variable bindings, because `split_path` discards the empty components
such slashes introduce. -/
theorem c9_path_normalization (α : Type) (paths : List (Str × α)) (p : Str) :
    validate_path paths (p ++ ['/']) = validate_path paths p
    ∧ validate_path paths ('/' :: p) = validate_path paths p := by
  constructor
  · rw [validate_path_eq, validate_path_eq, split_path_append_slash]
  · rw [validate_path_eq, validate_path_eq, split_path_cons_slash]

/-- C5: the declared-parameter policy of the current parameter module — a
missing candidate passes exactly when the parameter is optional; a found
candidate (header, query or path capability alike) is judged solely by
`validates`, i.e. parsed as a literal JSON value and checked against the
translated schema by the external collaborator; a parse failure makes
`validates` false (hence a rejection); and the whole-operation result is
`ok` exactly when every declared parameter validates. -/
theorem c5_parameter_policy (σ : Type) (C : Collaborators) (comps : Option (Components σ))
    (fuel : Nat) (toSchema : σ → JSON)
    (headers query_pairs path_parameters : List (Str × Str)) :
    (∀ d : ParameterData σ,
      (get_header headers d.name = none →
        parameter_validate C comps fuel toSchema (.header d) headers query_pairs path_parameters
          = if d.required then .rejected else .ok ())
      ∧ (extract_query_parameter query_pairs d.name = none →
        parameter_validate C comps fuel toSchema (.query d) headers query_pairs path_parameters
          = if d.required then .rejected else .ok ())
      ∧ (path_parameter_get path_parameters d.name = none →
        parameter_validate C comps fuel toSchema (.path d) headers query_pairs path_parameters
          = if d.required then .rejected else .ok ()))
    ∧ (∀ (d : ParameterData σ) (v : Str) (s : σ), d.format = some (.item s) →
      (get_header headers d.name = some v →
        parameter_validate C comps fuel toSchema (.header d) headers query_pairs path_parameters
          = if validates C (toSchema s) v then .ok () else .rejected)
      ∧ (extract_query_parameter query_pairs d.name = some v →
        parameter_validate C comps fuel toSchema (.query d) headers query_pairs path_parameters
          = if validates C (toSchema s) v then .ok () else .rejected)
      ∧ (path_parameter_get path_parameters d.name = some v →
        parameter_validate C comps fuel toSchema (.path d) headers query_pairs path_parameters
          = if validates C (toSchema s) v then .ok () else .rejected))
    ∧ (∀ (schema : JSON) (v : Str), C.jsonParseStr v = none → validates C schema v = false)
    ∧ (∀ params : List (ReferenceOr (Parameter σ)),
        (∀ r ∈ params, ∃ p, r = ReferenceOr.item p) →
        (validate_parameters C comps fuel toSchema params headers query_pairs path_parameters
            = .ok ()
          ↔ ∀ r ∈ params, ∀ p, r = ReferenceOr.item p →
              parameter_validate C comps fuel toSchema p headers query_pairs path_parameters
                = .ok ())) := by
  refine ⟨?_, ?_, ?_, ?_⟩
  · intro d
    refine ⟨?_, ?_, ?_⟩ <;> intro h <;> cases hd : d.required <;>
      simp [parameter_validate, Parameter.parameter_data, h, hd]
  · intro d v s hfmt
    refine ⟨?_, ?_, ?_⟩ <;> intro h <;>
      by_cases hv : validates C (toSchema s) v <;>
        simp [parameter_validate, Parameter.parameter_data, h, hfmt, fetchSchema_item, hv]
  · intro schema v h
    simp [validates, h]
  · intro params hitems
    induction params with
    | nil => simp [validate_parameters]
    | cons r rest ih =>
      obtain ⟨p, rfl⟩ := hitems r (List.mem_cons_self r rest)
      have hrest := ih fun r' hr' => hitems r' (List.mem_cons_of_mem _ hr')
      rcases hval : parameter_validate C comps fuel toSchema p headers query_pairs
          path_parameters with a | _ | _ | _
      · cases a
        constructor
        · intro hall
          intro r' hr' p' hp'
          rcases List.mem_cons.mp hr' with h | h
          · subst h
            injection hp' with h
            rw [← h]
            exact hval
          · refine (hrest.mp ?_) r' h p' hp'
            simpa [validate_parameters, fetchParameter_item, hval] using hall
        · intro hall
          simp only [validate_parameters, fetchParameter_item, hval]
          exact hrest.mpr fun r' hr' p' hp' => hall r' (List.mem_cons_of_mem _ hr') p' hp'
      · constructor
        · intro hall
          simp [validate_parameters, fetchParameter_item, hval] at hall
        · intro hall
          exact absurd (hall _ (List.mem_cons_self _ _) p rfl) (by simp [hval])
      · constructor
        · intro hall
          simp [validate_parameters, fetchParameter_item, hval] at hall
        · intro hall
          exact absurd (hall _ (List.mem_cons_self _ _) p rfl) (by simp [hval])
      · constructor
        · intro hall
          simp [validate_parameters, fetchParameter_item, hval] at hall
        · intro hall
          exact absurd (hall _ (List.mem_cons_self _ _) p rfl) (by simp [hval])

/-- C5 witness: a required `thing` header with an inline schema and header
value `true` is accepted under a collaborator that parses the value and
whose compiled evaluator accepts; a required parameter with no candidate
value is rejected. -/
theorem c5_parameter_policy_witness :
    parameter_validate ⟨fun _ => some .null, fun _ => none, fun _ => some (fun _ => true)⟩
        none 1 (fun _ : Unit => JSON.null) (.header ⟨"thing".data, true, some (.item ())⟩)
        [("thing".data, "true".data)] [] [] = .ok ()
    ∧ parameter_validate ⟨fun _ => some .null, fun _ => none, fun _ => some (fun _ => true)⟩
        none 1 (fun _ : Unit => JSON.null) (.header ⟨"thing".data, true, some (.item ())⟩)
        [] [] [] = .rejected := by
  constructor
  · have h := ((c5_parameter_policy Unit
      ⟨fun _ => some .null, fun _ => none, fun _ => some (fun _ => true)⟩ none 1
      (fun _ => JSON.null) [("thing".data, "true".data)] [] []).2.1
      ⟨"thing".data, true, some (.item ())⟩ "true".data () rfl).1 rfl
    exact h.trans (by rfl)
  · have h := ((c5_parameter_policy Unit
      ⟨fun _ => some .null, fun _ => none, fun _ => some (fun _ => true)⟩ none 1
      (fun _ => JSON.null) [] [] []).1 ⟨"thing".data, true, some (.item ())⟩).1 rfl
    exact h.trans (by rfl)

lemma trimStartMatchesFuel_no_strip (pat s : Str) (fuel : Nat)
    (h : pat.isPrefixOf s = false) :
    trimStartMatchesFuel pat fuel s = s := by
  cases fuel with
  | zero => rfl
  | succ n =>
    simp only [trimStartMatchesFuel]
    rw [if_neg]
    rintro ⟨-, h2⟩
    rw [h] at h2
    exact Bool.false_ne_true h2

lemma isPrefixOf_append_self (l₁ l₂ : Str) : l₁.isPrefixOf (l₁ ++ l₂) = true := by
  induction l₁ with
  | nil => simp [List.isPrefixOf]
  | cons c l ih => simp [List.isPrefixOf, ih]

lemma trim_strip_once (pfx name : Str) (hne : pfx ≠ [])
    (hnp : pfx.isPrefixOf name = false) :
    trim_start_matches pfx (pfx ++ name) = name := by
  unfold trim_start_matches
  simp only [trimStartMatchesFuel]
  rw [if_pos ⟨hne, isPrefixOf_append_self pfx name⟩,
    List.drop_left, trimStartMatchesFuel_no_strip pfx name _ hnp]

/-- C8: reference resolution — (1) a concrete item is returned as is;
(2) a reference of the form `prefix ++ name` has the known prefix
stripped, `name` is looked up in the component section, and resolution
recurses transparently on the fetched entry (which may itself be a
reference); (3) an absent component table is a panic, not a rejection;
(4) a name not present in the section is a panic, not a rejection. -/
theorem c8_reference_resolution :
    (∀ (τ : Type) (componentPath : Str) (section_ : List (Str × ReferenceOr τ))
        (componentsPresent : Bool) (fuel : Nat) (t : τ),
      item_or_fetch componentPath section_ componentsPresent fuel (.item t) = .found t)
    ∧ (∀ (τ : Type) (componentPath name : Str) (section_ : List (Str × ReferenceOr τ))
        (fuel : Nat) (kv : Str × ReferenceOr τ),
        componentPath ≠ [] → componentPath.isPrefixOf name = false →
        section_.find? (fun e => decide (e.1 = name)) = some kv →
        item_or_fetch componentPath section_ true (fuel + 1)
            (.reference (componentPath ++ name))
          = item_or_fetch componentPath section_ true fuel kv.2)
    ∧ (∀ (τ : Type) (componentPath ref : Str) (section_ : List (Str × ReferenceOr τ))
        (fuel : Nat),
        item_or_fetch (τ := τ) componentPath section_ false (fuel + 1) (.reference ref)
          = .fatal)
    ∧ (∀ (τ : Type) (componentPath ref : Str) (section_ : List (Str × ReferenceOr τ))
        (fuel : Nat),
        section_.find? (fun e => decide (e.1 = trim_start_matches componentPath ref)) = none →
        item_or_fetch componentPath section_ true (fuel + 1) (.reference ref) = .fatal) := by
  refine ⟨?_, ?_, ?_, ?_⟩
  · intro τ componentPath section_ componentsPresent fuel t
    exact item_or_fetch_item componentPath section_ componentsPresent fuel t
  · intro τ componentPath name section_ fuel kv hne hnp hfind
    simp only [item_or_fetch, trim_strip_once componentPath name hne hnp, hfind, if_pos]
  · intro τ componentPath ref section_ fuel
    simp [item_or_fetch]
  · intro τ componentPath ref section_ fuel hfind
    simp [item_or_fetch, hfind]

/-- C8 witness: a two-level reference chain
(`Test` → `Next` → concrete item) resolves to the concrete item, stripping
the schemas prefix at each step. -/
theorem c8_reference_resolution_witness :
    item_or_fetch "#/components/schemas/".data
        [("Test".data, .reference "#/components/schemas/Next".data),
          ("Next".data, .item (5 : Nat))] true 2
        (.reference "#/components/schemas/Test".data)
      = .found 5 := by
  have e1 : "#/components/schemas/Test".data
      = "#/components/schemas/".data ++ "Test".data := by decide
  have e2 : "#/components/schemas/Next".data
      = "#/components/schemas/".data ++ "Next".data := by decide
  rw [e1]
  rw [c8_reference_resolution.2.1 Nat "#/components/schemas/".data "Test".data
    [("Test".data, ReferenceOr.reference "#/components/schemas/Next".data),
      ("Next".data, ReferenceOr.item (5 : Nat))] 1
    ("Test".data, .reference "#/components/schemas/Next".data) (by decide) (by decide) rfl]
  show item_or_fetch "#/components/schemas/".data _ true 1
      (.reference "#/components/schemas/Next".data) = .found 5
  rw [e2]
  rw [c8_reference_resolution.2.1 Nat "#/components/schemas/".data "Next".data
    [("Test".data, ReferenceOr.reference ("#/components/schemas/".data ++ "Next".data)),
      ("Next".data, ReferenceOr.item (5 : Nat))] 0
    ("Next".data, .item 5) (by decide) (by decide) rfl]
  exact c8_reference_resolution.1 Nat _ _ _ _ _
